import Mathlib

/-!
Verification of the confetto layered configuration-resolution library.

The Go source is shallowly embedded: each Go function that the claims
touch is translated into an executable Lean definition (strings are Lean
strings, the Go `map[string]string` of the CLI source is a function
`String → Option String` built with pointwise update, fallible setters
return the mutated parameter together with an optional error, matching
the Go convention of mutating the receiver and returning `error`).
-/

namespace Confetto

/-! ## String helpers (models of the Go standard library functions used) -/

/-- Model of `unicode.IsSpace` as used by `strings.TrimSpace`: the ASCII
whitespace characters, the two Latin-1 ones, and the Unicode White_Space
code points. -/
def isGoSpace (c : Char) : Bool :=
  c = ' ' || c = '\t' || c = '\n' || c = Char.ofNat 11 || c = Char.ofNat 12 ||
  c = '\r' || c = Char.ofNat 0x85 || c = Char.ofNat 0xA0 ||
  c = Char.ofNat 0x1680 || (0x2000 ≤ c.toNat && c.toNat ≤ 0x200A) ||
  c = Char.ofNat 0x2028 || c = Char.ofNat 0x2029 || c = Char.ofNat 0x202F ||
  c = Char.ofNat 0x205F || c = Char.ofNat 0x3000

/-- Model of `strings.TrimSpace` on the character list of a string. -/
def trimChars (cs : List Char) : List Char :=
  ((cs.dropWhile isGoSpace).reverse.dropWhile isGoSpace).reverse

/-- Model of `strings.TrimSpace`. -/
def goTrimSpace (s : String) : String :=
  String.mk (trimChars s.data)

/-- Splits a character list at the first occurrence of the substring
`sep`, returning the part before and the part after, or `none` when
`sep` does not occur.  This models the scan `strings.Split` performs. -/
def splitAtSub (sep : List Char) : List Char → Option (List Char × List Char)
  | [] => none
  | c :: rest =>
    if sep.isPrefixOf (c :: rest) then
      some ([], (c :: rest).drop sep.length)
    else
      (splitAtSub sep rest).map (fun x => (c :: x.1, x.2))

theorem splitAtSub_shrinks (sep cs b a : List Char) (hsep : sep ≠ [])
    (h : splitAtSub sep cs = some (b, a)) : a.length < cs.length := by
  induction cs generalizing b a with
  | nil => simp [splitAtSub] at h
  | cons c rest ih =>
    simp only [splitAtSub] at h
    by_cases hp : sep.isPrefixOf (c :: rest)
    · simp only [hp, if_pos] at h
      obtain ⟨hb, ha⟩ := Prod.mk.injEq .. ▸ Option.some.injEq .. ▸ h
      subst ha
      have hlen : 1 ≤ sep.length := by
        cases sep with
        | nil => exact absurd rfl hsep
        | cons x xs => simp
      rw [List.length_drop]
      simp only [List.length_cons]
      omega
    · simp only [hp, if_neg, Bool.false_eq_true, not_false_iff] at h
      cases hrec : splitAtSub sep rest with
      | none => rw [hrec] at h; simp at h
      | some x =>
        rw [hrec] at h
        obtain ⟨x1, x2⟩ := x
        simp only [Option.map, Option.some.injEq, Prod.mk.injEq] at h
        obtain ⟨hb, ha⟩ := h
        subst ha
        have := ih x1 x2 hrec
        simp only [List.length_cons]
        omega

/-- Model of `strings.Split` on character lists, for a non-empty
separator (the only case the library exercises: `Load` replaces an empty
`ListSeparator` by a comma, and the YAML walker splits on a dot).  For
an empty separator the whole input is returned as a single chunk. -/
def goSplitChars (sep : List Char) (cs : List Char) : List (List Char) :=
  if hsep : sep = [] then [cs]
  else
    match hm : splitAtSub sep cs with
    | none => [cs]
    | some x => x.1 :: goSplitChars sep x.2
termination_by cs.length
decreasing_by exact splitAtSub_shrinks sep cs x.1 x.2 hsep (by rw [hm])

/-- Model of `strings.Split`. -/
def goSplit (s sep : String) : List String :=
  (goSplitChars sep.data s.data).map String.mk

theorem goSplitChars_ne_nil (sep cs : List Char) : goSplitChars sep cs ≠ [] := by
  rw [goSplitChars]
  by_cases hsep : sep = []
  · simp [hsep]
  · simp only [hsep, dite_false]
    cases splitAtSub sep cs <;> simp

theorem goSplit_ne_nil (s sep : String) : goSplit s sep ≠ [] := by
  unfold goSplit
  intro h
  exact goSplitChars_ne_nil sep.data s.data (List.map_eq_nil_iff.mp h)

/-! ## Models of the strconv parsers -/

/-- The largest value of the Go `int` type (64-bit). -/
def int64MaxNat : Nat := 9223372036854775807

/-- Decimal digit value, or `none` for a non-digit. -/
def digitVal (c : Char) : Option Nat :=
  if c.isDigit then some (c.toNat - 48) else none

def digitsToNatAux (acc : Nat) : List Char → Option Nat
  | [] => some acc
  | c :: cs =>
    match digitVal c with
    | some d => digitsToNatAux (acc * 10 + d) cs
    | none => none

/-- The value of a non-empty all-digit character list, `none` otherwise. -/
def digitsToNat (cs : List Char) : Option Nat :=
  match cs with
  | [] => none
  | _ => digitsToNatAux 0 cs

/-- Model of `strconv.Atoi`: an optional sign followed by at least one
decimal digit, rejecting values outside the 64-bit `int` range (Go
returns a non-nil error in every failing case, which is all the callers
inspect). -/
def parseGoIntChars : List Char → Option Int
  | [] => none
  | '+' :: cs =>
    (digitsToNat cs).bind fun n =>
      if n ≤ int64MaxNat then some (Int.ofNat n) else none
  | '-' :: cs =>
    (digitsToNat cs).bind fun n =>
      if n ≤ int64MaxNat + 1 then some (-(Int.ofNat n)) else none
  | cs =>
    (digitsToNat cs).bind fun n =>
      if n ≤ int64MaxNat then some (Int.ofNat n) else none

/-- Model of `strconv.Atoi`. -/
def parseGoInt (s : String) : Option Int :=
  parseGoIntChars s.data

/-- Model of `strconv.ParseBool`: exactly the thirteen literals Go
accepts. -/
def parseGoBool (s : String) : Option Bool :=
  match s with
  | "1" | "t" | "T" | "true" | "TRUE" | "True" => some true
  | "0" | "f" | "F" | "false" | "FALSE" | "False" => some false
  | _ => none

/-! ## Dynamic values

A `Value` models a Go `any` as produced by the three sources: the CLI and
environment sources produce strings, the YAML source produces strings,
integers, booleans, floating-point numbers, sequences and nested
mappings.  Go `int` and `int64` are both modelled by `vInt`; `float64`
is idealised as a rational number (every finite IEEE double is a
rational, and the conversion to `int` truncates toward zero). -/

mutual

inductive Value where
  | vStr (s : String)
  | vInt (n : Int)
  | vBool (b : Bool)
  | vFloat (q : Rat)
  | vList (xs : ValueList)
  | vMap (m : ValueMap)

inductive ValueList where
  | nil
  | cons (v : Value) (rest : ValueList)

inductive ValueMap where
  | nil
  | cons (k : String) (v : Value) (rest : ValueMap)

end

/-- Truncation of a rational toward zero, modelling Go's conversion
`int(f)` from `float64`. -/
def ratTrunc (q : Rat) : Int :=
  Int.tdiv q.num (Int.ofNat q.den)

/-- Number of elements of a `ValueList`. -/
def ValueList.length : ValueList → Nat
  | .nil => 0
  | .cons _ rest => 1 + rest.length

/-- First binding for a key in a `ValueMap`, modelling the Go map
indexing `m[part]` of the decoded YAML tree. -/
def ValueMap.find : ValueMap → String → Option Value
  | .nil, _ => none
  | .cons k v rest, key => if k = key then some v else rest.find key

mutual

/-- Model of the `fmt.Sprintf` rendering with the `v` verb that the Go
code applies to a value before embedding it in a `ParseError`. -/
def renderValue : Value → String
  | .vStr s => s
  | .vInt n => toString n
  | .vBool b => if b then "true" else "false"
  | .vFloat q => toString q
  | .vList xs => "[" ++ renderValueList xs ++ "]"
  | .vMap m => "map[" ++ renderValueMap m ++ "]"

def renderValueList : ValueList → String
  | .nil => ""
  | .cons v .nil => renderValue v
  | .cons v rest => renderValue v ++ " " ++ renderValueList rest

def renderValueMap : ValueMap → String
  | .nil => ""
  | .cons k v .nil => k ++ ":" ++ renderValue v
  | .cons k v rest => k ++ ":" ++ renderValue v ++ " " ++ renderValueMap rest

end

/-! ## Error records -/

/-- The three error kinds of the library, plus nothing else: the field
`hasCause` of a parse error records whether the Go `ParseError.Err`
field is non-nil (the underlying strconv failure). -/
inductive ConfError where
  | parseErr (key value expected : String) (hasCause : Bool)
  | validationErr (key value msg : String)
  | requiredErr (key : String)
deriving DecidableEq, Repr

/-- Recognizer for `RequiredError` records. -/
def ConfError.isRequiredError : ConfError → Bool
  | .requiredErr _ => true
  | _ => false

/-! ## The generic parameter cell -/

/-- The Go generic struct `param[T]`: current value, default value and
flag, set flag, required flag, description, assigned key and the
validator chain (each validator returns a failure message or nothing). -/
structure ParamBase (T : Type) where
  value : T
  defaultVal : T
  hasDefVal : Bool
  set : Bool
  required : Bool
  desc : String
  k : String
  validators : List (T → Option String)

/-- Runs the validator chain in declared order, stopping at the first
failure, as `param[T].validate` does. -/
def runValidators {T : Type} (vs : List (T → Option String)) (v : T) : Option String :=
  match vs with
  | [] => none
  | f :: rest =>
    match f v with
    | some msg => some msg
    | none => runValidators rest v

/-- Model of `param[T].validate`: the first failing validator produces a
`ValidationError` carrying the key, the rendered current value and the
failure message. -/
def paramValidate {T : Type} (render : T → String) (p : ParamBase T) : Option ConfError :=
  match runValidators p.validators p.value with
  | some msg => some (.validationErr p.k (render p.value) msg)
  | none => none

/-! ## Coercion layer: the `setFromString` and `setFromAny` methods

Each Go setter mutates the receiver and returns an error; the Lean
models return the resulting parameter together with the optional error.
The five scalar kinds other than string share one skeleton
(`scalarParamFromString`), and the four parsing list kinds share another
(`listParamFromString`), exactly mirroring the repeated Go bodies. -/

/-- Shared body of the scalar `setFromString` methods: parse the whole
raw string, on failure return a `ParseError` (with the strconv cause)
and leave the parameter untouched, on success store the value and mark
the parameter set. -/
def scalarParamFromString {α : Type} (parse : String → Option α) (expected : String)
    (p : ParamBase α) (s : String) : ParamBase α × Option ConfError :=
  match parse s with
  | none => (p, some (.parseErr p.k s expected true))
  | some v => ({ p with value := v, set := true }, none)

/-- The element loop shared by the parsing list `setFromString` bodies:
Go allocates the result slice zero-filled (`make`), fills it element by
element, and returns a `ParseError` naming the raw (untrimmed) element
text at the first failing element, leaving the remaining slots zero. -/
def listLoop {α : Type} (parse : String → Option α) (expected key : String) (zero : α) :
    List String → List α × Option ConfError
  | [] => ([], none)
  | part :: rest =>
    match parse (goTrimSpace part) with
    | none => (zero :: List.replicate rest.length zero,
               some (.parseErr key part expected true))
    | some v =>
      let r := listLoop parse expected key zero rest
      (v :: r.1, r.2)

/-- Shared body of the parsing list `setFromString` methods: an empty
string yields an empty list and marks the parameter set; otherwise the
string is split on the separator and each element trimmed and parsed. -/
def listParamFromString {α : Type} (parse : String → Option α) (expected : String)
    (zero : α) (p : ParamBase (List α)) (s sep : String) :
    ParamBase (List α) × Option ConfError :=
  if s = "" then ({ p with value := [], set := true }, none)
  else
    let r := listLoop parse expected p.k zero (goSplit s sep)
    match r.2 with
    | some err => ({ p with value := r.1 }, some err)
    | none => ({ p with value := r.1, set := true }, none)

/-- The element loop shared by the list `setFromAny` bodies over a
decoded YAML sequence: same zero-filled slice discipline, but the
elements are dynamic values converted by a per-kind case switch, and the
`ParseError` has no underlying cause. -/
def anyListLoop {α : Type} (conv : Value → Option α) (expected key : String) (zero : α) :
    ValueList → List α × Option ConfError
  | .nil => ([], none)
  | .cons item rest =>
    match conv item with
    | none => (zero :: List.replicate rest.length zero,
               some (.parseErr key (renderValue item) expected false))
    | some v =>
      let r := anyListLoop conv expected key zero rest
      (v :: r.1, r.2)

/-- Shared tail of the list `setFromAny` bodies for the sequence case. -/
def listParamFromAnyList {α : Type} (conv : Value → Option α) (expected : String)
    (zero : α) (p : ParamBase (List α)) (xs : ValueList) :
    ParamBase (List α) × Option ConfError :=
  let r := anyListLoop conv expected p.k zero xs
  match r.2 with
  | some err => ({ p with value := r.1 }, some err)
  | none => ({ p with value := r.1, set := true }, none)

/-! ### Per-kind parameter types and their setters -/

/-- The Go `StringParam` wraps `param[string]`. -/
abbrev StringParam := ParamBase String

/-- `StringParam.setFromString` stores the raw string verbatim and never
fails; the separator is ignored. -/
def StringParam.setFromString (p : StringParam) (s : String) (_sep : String) :
    StringParam × Option ConfError :=
  ({ p with value := s, set := true }, none)

/-- `StringParam.setFromAny` stores a string directly and renders any
other value; it never fails. -/
def StringParam.setFromAny (p : StringParam) (v : Value) (_sep : String) :
    StringParam × Option ConfError :=
  match v with
  | .vStr s => ({ p with value := s, set := true }, none)
  | other => ({ p with value := renderValue other, set := true }, none)

/-- The Go `IntParam` wraps `param[int]`. -/
abbrev IntParam := ParamBase Int

/-- `IntParam.setFromString` parses with `strconv.Atoi`. -/
def IntParam.setFromString (p : IntParam) (s : String) (_sep : String) :
    IntParam × Option ConfError :=
  scalarParamFromString parseGoInt "int" p s

/-- `IntParam.setFromAny`: Go `int` and `int64` are stored directly,
`float64` is truncated, a string is re-parsed via `setFromString` (with
an empty separator, as in the Go call), anything else is a `ParseError`
with no cause. -/
def IntParam.setFromAny (p : IntParam) (v : Value) (_sep : String) :
    IntParam × Option ConfError :=
  match v with
  | .vInt n => ({ p with value := n, set := true }, none)
  | .vFloat q => ({ p with value := ratTrunc q, set := true }, none)
  | .vStr s => IntParam.setFromString p s ""
  | other => (p, some (.parseErr p.k (renderValue other) "int" false))

/-- The Go `BoolParam` wraps `param[bool]`. -/
abbrev BoolParam := ParamBase Bool

/-- `BoolParam.setFromString` parses with `strconv.ParseBool`. -/
def BoolParam.setFromString (p : BoolParam) (s : String) (_sep : String) :
    BoolParam × Option ConfError :=
  scalarParamFromString parseGoBool "bool" p s

/-- `BoolParam.setFromAny`: a native boolean is stored directly, a
string is re-parsed, anything else is a `ParseError` with no cause. -/
def BoolParam.setFromAny (p : BoolParam) (v : Value) (_sep : String) :
    BoolParam × Option ConfError :=
  match v with
  | .vBool b => ({ p with value := b, set := true }, none)
  | .vStr s => BoolParam.setFromString p s ""
  | other => (p, some (.parseErr p.k (renderValue other) "bool" false))

/-- The Go `StringListParam` wraps `param[[]string]`. -/
abbrev StringListParam := ParamBase (List String)

/-- `StringListParam.setFromString`: an empty string yields the empty
list, otherwise the string is split on the separator with the elements
taken verbatim (no trimming); it never fails. -/
def StringListParam.setFromString (p : StringListParam) (s sep : String) :
    StringListParam × Option ConfError :=
  if s = "" then ({ p with value := [], set := true }, none)
  else ({ p with value := goSplit s sep, set := true }, none)

/-- Renders each element of a decoded sequence, as the Go loop over
`[]any` in `StringListParam.setFromAny` does with `fmt.Sprintf`. -/
def renderEach : ValueList → List String
  | .nil => []
  | .cons item rest => renderValue item :: renderEach rest

/-- `StringListParam.setFromAny`: a decoded sequence is rendered element
by element (Go formats every element with the `v` verb, which is the
identity on strings), a string is re-split, anything else is a
`ParseError`. -/
def StringListParam.setFromAny (p : StringListParam) (v : Value) (sep : String) :
    StringListParam × Option ConfError :=
  match v with
  | .vList xs => ({ p with value := renderEach xs, set := true }, none)
  | .vStr s => StringListParam.setFromString p s sep
  | other => (p, some (.parseErr p.k (renderValue other) "[]string" false))

/-- The Go `IntListParam` wraps `param[[]int]`. -/
abbrev IntListParam := ParamBase (List Int)

/-- `IntListParam.setFromString`: split, trim each element, parse each
with `strconv.Atoi`, abort at the first failure. -/
def IntListParam.setFromString (p : IntListParam) (s sep : String) :
    IntListParam × Option ConfError :=
  listParamFromString parseGoInt "int" 0 p s sep

/-- Per-element conversion of `IntListParam.setFromAny`: the Go switch
accepts `int`, `int64` and `float64` elements. -/
def intElemConv : Value → Option Int
  | .vInt n => some n
  | .vFloat q => some (ratTrunc q)
  | _ => none

/-- `IntListParam.setFromAny`: a decoded sequence is converted element
by element, a string is re-parsed via `setFromString`, anything else is
a `ParseError`. -/
def IntListParam.setFromAny (p : IntListParam) (v : Value) (sep : String) :
    IntListParam × Option ConfError :=
  match v with
  | .vList xs => listParamFromAnyList intElemConv "int" 0 p xs
  | .vStr s => IntListParam.setFromString p s sep
  | other => (p, some (.parseErr p.k (renderValue other) "[]int" false))

/-- The Go `BoolListParam` wraps `param[[]bool]`. -/
abbrev BoolListParam := ParamBase (List Bool)

/-- `BoolListParam.setFromString`: split, trim each element, parse each
with `strconv.ParseBool`, abort at the first failure. -/
def BoolListParam.setFromString (p : BoolListParam) (s sep : String) :
    BoolListParam × Option ConfError :=
  listParamFromString parseGoBool "bool" false p s sep

/-- Per-element conversion of `BoolListParam.setFromAny`: the Go switch
accepts only `bool` elements. -/
def boolElemConv : Value → Option Bool
  | .vBool b => some b
  | _ => none

/-- `BoolListParam.setFromAny`. -/
def BoolListParam.setFromAny (p : BoolListParam) (v : Value) (sep : String) :
    BoolListParam × Option ConfError :=
  match v with
  | .vList xs => listParamFromAnyList boolElemConv "bool" false p xs
  | .vStr s => BoolListParam.setFromString p s sep
  | other => (p, some (.parseErr p.k (renderValue other) "[]bool" false))

/-! ## The `Param` interface and the resolution engine -/

/-- The Go `Param` interface, as a record of operations over a carrier
type: every parameter kind provides its key accessors, the two setters,
validation and the three flags. -/
structure ParamOps (σ : Type) where
  key : σ → String
  setFromString : σ → String → String → σ × Option ConfError
  setFromAny : σ → Value → String → σ × Option ConfError
  validate : σ → Option ConfError
  isRequired : σ → Bool
  isSet : σ → Bool
  hasDefault : σ → Bool

/-- Builds the `Param` interface record of one of the concrete
`ParamBase` kinds from its rendering function and its two setters. -/
def paramOpsOf {T : Type} (render : T → String)
    (sfs : ParamBase T → String → String → ParamBase T × Option ConfError)
    (sfa : ParamBase T → Value → String → ParamBase T × Option ConfError) :
    ParamOps (ParamBase T) where
  key := fun p => p.k
  setFromString := sfs
  setFromAny := sfa
  validate := fun p => paramValidate render p
  isRequired := fun p => p.required
  isSet := fun p => p.set
  hasDefault := fun p => p.hasDefVal

/-- The interface record of `StringParam`. -/
def stringOps : ParamOps StringParam :=
  paramOpsOf (fun s => s) StringParam.setFromString StringParam.setFromAny

/-- The interface record of `IntParam`. -/
def intOps : ParamOps IntParam :=
  paramOpsOf (fun n => toString n) IntParam.setFromString IntParam.setFromAny

/-- The interface record of `BoolParam`. -/
def boolOps : ParamOps BoolParam :=
  paramOpsOf (fun b => if b then "true" else "false")
    BoolParam.setFromString BoolParam.setFromAny

/-- The interface record of `IntListParam`. -/
def intListOps : ParamOps IntListParam :=
  paramOpsOf (fun ns => toString ns) IntListParam.setFromString IntListParam.setFromAny

/-- A source is its `get` method: a value for a key, or `none`. -/
abbrev Source := String → Option Value

/-- The source-scan loop of `loadParam`: the first source returning a
non-nil value wins. -/
def firstSourceValue (sources : List Source) (key : String) : Option Value :=
  match sources with
  | [] => none
  | src :: rest =>
    match src key with
    | some v => some v
    | none => firstSourceValue rest key

/-- The tail of `loadParam` after the coercion phase: run the validator
chain, then the required check (`required && !IsSet() && !hasDefault()`),
appending each failure to the aggregate. -/
def loadParamFinish {σ : Type} (ops : ParamOps σ) (p : σ) (errs : List ConfError) :
    σ × List ConfError :=
  let errs1 :=
    match ops.validate p with
    | some e => errs ++ [e]
    | none => errs
  let errs2 :=
    if ops.isRequired p && !ops.isSet p && !ops.hasDefault p then
      errs1 ++ [ConfError.requiredErr (ops.key p)]
    else errs1
  (p, errs2)

/-- Model of `loadParam`: scan the sources in order, coerce a winning
string with `setFromString` and any other winning value with
`setFromAny`, stop on a coercion error (appending only that error), and
otherwise run validation and the required check. -/
def loadParam {σ : Type} (ops : ParamOps σ) (p : σ) (sources : List Source)
    (sep : String) (errs : List ConfError) : σ × List ConfError :=
  match firstSourceValue sources (ops.key p) with
  | some v =>
    let r :=
      match v with
      | .vStr s => ops.setFromString p s sep
      | other => ops.setFromAny p other sep
    match r.2 with
    | some e => (r.1, errs ++ [e])
    | none => loadParamFinish ops r.1 errs
  | none => loadParamFinish ops p errs

/-! ## The CLI source -/

/-- A Go `map[string]string`, modelled by its lookup function. -/
abbrev GoMap := String → Option String

/-- The empty map. -/
def emptyGoMap : GoMap := fun _ => none

/-- Go map assignment `m[k] = v`. -/
def mapSet (m : GoMap) (k v : String) : GoMap :=
  fun q => if q = k then some v else m q

/-- Model of `strings.HasPrefix(s, "--")`. -/
def hasDashDash (s : String) : Bool :=
  match s.data with
  | '-' :: '-' :: _ => true
  | _ => false

/-- Model of `strings.TrimPrefix(s, "--")`. -/
def trimDashDash (s : String) : String :=
  match s.data with
  | '-' :: '-' :: rest => String.mk rest
  | _ => s

/-- Splits a character list at the first `=`, modelling
`strings.Index(arg, "=")` followed by the two slices. -/
def splitFirstEq : List Char → Option (List Char × List Char)
  | [] => none
  | c :: rest =>
    if c = '=' then some ([], rest)
    else (splitFirstEq rest).map (fun x => (c :: x.1, x.2))

/-- The construction loop of `newCLISource`: tokens without the `--`
long-flag marker are skipped; `--key=value` splits at the first `=`;
otherwise the next token is consumed as the value exactly when it exists
and does not itself start with `--`, else the flag gets the value
`true`. -/
def cliValues (args : List String) (m : GoMap) : GoMap :=
  match args with
  | [] => m
  | arg :: rest =>
    if hasDashDash arg then
      let a := trimDashDash arg
      match splitFirstEq a.data with
      | some kv => cliValues rest (mapSet m (String.mk kv.1) (String.mk kv.2))
      | none =>
        match rest with
        | [] => cliValues [] (mapSet m a "true")
        | next :: rest2 =>
          if hasDashDash next then cliValues (next :: rest2) (mapSet m a "true")
          else cliValues rest2 (mapSet m a next)
    else cliValues rest m
termination_by args.length
decreasing_by all_goals (simp only [List.length_cons]; omega)

/-- Model of `newCLISource`: the parsed flag map. -/
def newCLISource (args : List String) : GoMap :=
  cliValues args emptyGoMap

/-- The `get` method of the CLI source: a map hit, delivered as a
dynamic string value. -/
def cliSourceGet (m : GoMap) (key : String) : Option Value :=
  (m key).map Value.vStr

/-- Combines an earlier assignment with a later one: the later one wins
when present.  Used by the occurrence specification below. -/
def olast (earlier later : Option String) : Option String :=
  match later with
  | some v => some v
  | none => earlier

/-- Specification of the amended C3 claim, following the spec's words:
the value carried by the last occurrence of the key `k` in the argument
list, where a token occurrence of `k` and its value are classified
exactly as the adapter classifies tokens — `--k=value`, `--k value`
(next token consumed when it does not start with `--`), or bare `--k`
(value `"true"`); `none` when `k` never occurs. -/
def lastCliAssign (k : String) (args : List String) : Option String :=
  match args with
  | [] => none
  | arg :: rest =>
    if hasDashDash arg then
      let a := trimDashDash arg
      match splitFirstEq a.data with
      | some kv =>
        olast (if String.mk kv.1 = k then some (String.mk kv.2) else none)
          (lastCliAssign k rest)
      | none =>
        match rest with
        | [] => if a = k then some "true" else none
        | next :: rest2 =>
          if hasDashDash next then
            olast (if a = k then some "true" else none)
              (lastCliAssign k (next :: rest2))
          else
            olast (if a = k then some next else none) (lastCliAssign k rest2)
    else lastCliAssign k rest
termination_by args.length
decreasing_by all_goals (simp only [List.length_cons]; omega)

/-! ## The schema walker -/

/-! A schema value as the reflective walker sees it: a `Param` cell
(identified by a number so key assignment can be observed), a nested
struct with its ordered fields, or a field of any other type.  Each
field carries its `cfg` tag and whether it is embedded (anonymous). -/

mutual

inductive SchemaVal where
  | paramV (id : Nat)
  | structV (fields : Fields)
  | otherV

inductive Fields where
  | nil
  | cons (tag : String) (anon : Bool) (v : SchemaVal) (rest : Fields)

end

/-- The key computation of `collectParams`: `pre.tag` when both the
prefix and the tag are non-empty, just the prefix when the tag is empty,
just the tag when the prefix is empty. -/
def mkKey (pre tag : String) : String :=
  if pre ≠ "" ∧ tag ≠ "" then pre ++ "." ++ tag
  else if pre ≠ "" then pre
  else tag

mutual

/-- Model of `collectParams`: walks a struct and collects the `Param`
fields with the keys assigned to them; a non-struct root yields
nothing. -/
def collectParams : SchemaVal → String → List (Nat × String)
  | .structV fs, pre => collectFields fs pre
  | _, _ => []

/-- The field loop of `collectParams`: a field with an empty tag that is
not embedded is skipped; otherwise a `Param` field is collected under
the computed key, a nested struct is recursed into with the computed key
as the new prefix, and any other field contributes nothing. -/
def collectFields : Fields → String → List (Nat × String)
  | .nil, _ => []
  | .cons tag anon v rest, pre =>
    if tag = "" && !anon then collectFields rest pre
    else
      (match v with
       | .paramV id => [(id, mkKey pre tag)]
       | .structV fs => collectFields fs (mkKey pre tag)
       | .otherV => []) ++ collectFields rest pre

end

/-! ## The YAML source and the whole load -/

/-- Outcome of `os.ReadFile` for a path: the file does not exist, the
read fails for another reason, or it yields the raw content. -/
inductive FileRes where
  | absent
  | readFailure (msg : String)
  | content (raw : String)

/-- Model of `newYAMLSource`.  The filesystem and the YAML decoder are
the external collaborators, passed as functions: an empty path or a
non-existent file yields an empty tree, a failed read or a failed decode
propagates the failure. -/
def newYAMLSource (fs : String → FileRes)
    (decode : String → Except String ValueMap) (filename : String) :
    Except String ValueMap :=
  if filename = "" then .ok .nil
  else
    match fs filename with
    | .absent => .ok .nil
    | .readFailure msg => .error msg
    | .content raw =>
      match decode raw with
      | .error e => .error e
      | .ok m => .ok m

/-- The path walk of `yamlSource.get`: split on dots, descend through
nested mappings, yield `none` on a missing key or a non-mapping node
met mid-path. -/
def yamlWalk (v : Value) (parts : List String) : Option Value :=
  match parts with
  | [] => some v
  | part :: rest =>
    match v with
    | .vMap m =>
      match m.find part with
      | some child => yamlWalk child rest
      | none => none
    | _ => none

/-- The `get` method of the YAML source. -/
def yamlSourceGet (data : ValueMap) (key : String) : Option Value :=
  yamlWalk (.vMap data) (goSplit key ".")

/-- What a whole `Load` call returns: the one fatal, non-aggregated
error from YAML source construction, or the aggregated `LoadError` when
any parameter failed, or success. -/
inductive LoadOutcome where
  | fatal (msg : String)
  | loadFailed (errs : List ConfError)
  | success

/-- The parameter loop of `Load`: every parameter is processed, each
threading the growing error aggregate. -/
def loadParams {σ : Type} (ops : ParamOps σ) (ps : List σ) (sources : List Source)
    (sep : String) (errs : List ConfError) : List σ × List ConfError :=
  match ps with
  | [] => ([], errs)
  | p :: rest =>
    let r := loadParam ops p sources sep errs
    let rr := loadParams ops rest sources sep r.2
    (r.1 :: rr.1, rr.2)

/-- Model of `Loader.Load` over one registered parameter list: default
the separator to a comma, construct the YAML source (aborting the whole
load on its error, before touching any parameter), then resolve every
parameter against CLI, environment and file in that order, returning the
aggregate only if it is non-empty. -/
def LoadModel {σ : Type} (ops : ParamOps σ) (ps : List σ) (cliF envF : Source)
    (fs : String → FileRes) (decode : String → Except String ValueMap)
    (filename sep : String) : List σ × LoadOutcome :=
  let sep1 := if sep = "" then "," else sep
  match newYAMLSource fs decode filename with
  | .error e => (ps, .fatal e)
  | .ok tree =>
    let r := loadParams ops ps [cliF, envF, fun key => yamlSourceGet tree key] sep1 []
    (r.1, if r.2.isEmpty then .success else .loadFailed r.2)

/-! ## Claim theorems -/

theorem listLoop_first_failure {α : Type} (parse : String → Option α)
    (expected key : String) (zero : α) (pre : List String) (bad : String)
    (rest : List String)
    (hpre : ∀ x ∈ pre, (parse (goTrimSpace x)).isSome = true)
    (hbad : parse (goTrimSpace bad) = none) :
    listLoop parse expected key zero (pre ++ bad :: rest) =
      (pre.filterMap (fun x => parse (goTrimSpace x)) ++
         List.replicate (rest.length + 1) zero,
       some (.parseErr key bad expected true)) := by
  induction pre with
  | nil => simp [listLoop, hbad, List.replicate_succ]
  | cons x xs ih =>
    have hx := hpre x (by simp)
    obtain ⟨v, hv⟩ := Option.isSome_iff_exists.mp hx
    have ihx := ih (fun y hy => hpre y (by simp [hy]))
    simp only [List.cons_append, listLoop, hv, List.append_eq, ihx, List.filterMap_cons]

/-- C6: for every list parameter kind and every separator, coercing the
empty string from a string source succeeds, yields the empty list (never
a one-element list holding the empty string) and marks the parameter
set.  The first conjunct covers every parsing list kind at once, being
universally quantified over the element parser that instantiates the
shared body; the remaining conjuncts are the concrete kinds. -/
theorem c6_empty_string_list :
    (∀ (α : Type) (parse : String → Option α) (expected : String) (zero : α)
       (p : ParamBase (List α)) (sep : String),
       listParamFromString parse expected zero p "" sep =
         ({ p with value := [], set := true }, none))
    ∧ (∀ (q : StringListParam) (sep : String),
       StringListParam.setFromString q "" sep =
         ({ q with value := [], set := true }, none))
    ∧ (∀ (p : IntListParam) (sep : String),
       IntListParam.setFromString p "" sep =
         ({ p with value := [], set := true }, none))
    ∧ (∀ (p : BoolListParam) (sep : String),
       BoolListParam.setFromString p "" sep =
         ({ p with value := [], set := true }, none)) := by
  refine ⟨fun α parse expected zero p sep => ?_, fun q sep => ?_,
          fun p sep => ?_, fun p sep => ?_⟩ <;>
    simp [listParamFromString, StringListParam.setFromString,
      IntListParam.setFromString, BoolListParam.setFromString]

/-- C7: for every parsing list kind (the first conjunct is universally
quantified over the element parser instantiating the shared body; the
last two conjuncts identify the concrete int and bool list kinds as
instances), when the split of a non-empty input has a first malformed
element, coercion returns a `ParseError` naming that element's raw
(untrimmed) text and the element kind, and the result is fully
determined by the elements before the failure and the mere count of the
elements after it — the elements after the first failing one are never
parsed. -/
theorem c7_list_element_failure :
    (∀ (α : Type) (parse : String → Option α) (expected : String) (zero : α)
       (p : ParamBase (List α)) (s sep : String) (pre : List String)
       (bad : String) (rest : List String),
       s ≠ "" →
       goSplit s sep = pre ++ bad :: rest →
       (∀ x ∈ pre, (parse (goTrimSpace x)).isSome = true) →
       parse (goTrimSpace bad) = none →
       listParamFromString parse expected zero p s sep =
         ({ p with value := pre.filterMap (fun x => parse (goTrimSpace x)) ++
              List.replicate (rest.length + 1) zero },
          some (ConfError.parseErr p.k bad expected true)))
    ∧ (∀ (p : IntListParam) (s sep : String),
       IntListParam.setFromString p s sep =
         listParamFromString parseGoInt "int" 0 p s sep)
    ∧ (∀ (p : BoolListParam) (s sep : String),
       BoolListParam.setFromString p s sep =
         listParamFromString parseGoBool "bool" false p s sep) := by
  refine ⟨fun α parse expected zero p s sep pre bad rest hs hsplit hpre hbad => ?_,
          fun _ _ _ => rfl, fun _ _ _ => rfl⟩
  rw [listParamFromString, if_neg hs, hsplit,
    listLoop_first_failure parse expected p.k zero pre bad rest hpre hbad]

/-- Witness for C7 at the spec's own example: the int list input
`"1,x,3"` fails at `"x"`, parses only the prefix, and reports the int
kind. -/
theorem c7_witness :
    ("1,x,3" ≠ "")
    ∧ goSplit "1,x,3" "," = ["1"] ++ "x" :: ["3"]
    ∧ (∀ x ∈ ["1"], (parseGoInt (goTrimSpace x)).isSome = true)
    ∧ parseGoInt (goTrimSpace "x") = none
    ∧ listParamFromString parseGoInt "int" 0
        (⟨[], [], false, false, false, "", "ports", []⟩ : IntListParam) "1,x,3" "," =
        (⟨[1, 0, 0], [], false, false, false, "", "ports", []⟩,
         some (ConfError.parseErr "ports" "x" "int" true)) := by
  have hsplit : goSplit "1,x,3" "," = ["1"] ++ "x" :: ["3"] := by
    simp [goSplit, goSplitChars, splitAtSub, List.isPrefixOf]
  have hpre : ∀ x ∈ ["1"], (parseGoInt (goTrimSpace x)).isSome = true := by decide
  have hbad : parseGoInt (goTrimSpace "x") = none := by decide
  refine ⟨by decide, hsplit, hpre, hbad, ?_⟩
  rw [c7_list_element_failure.1 Int parseGoInt "int" 0
    (⟨[], [], false, false, false, "", "ports", []⟩ : IntListParam) "1,x,3" ","
    ["1"] "x" ["3"] (by decide) hsplit hpre hbad]
  rfl

/-! ### CLI source lemmas -/

theorem mk_data (s : String) : String.mk s.data = s := by
  obtain ⟨d⟩ := s
  rfl

theorem data_dd (r : String) : ("--" ++ r).data = '-' :: '-' :: r.data := by
  rw [String.data_append]
  rfl

theorem hasDashDash_dd (r : String) : hasDashDash ("--" ++ r) = true := by
  unfold hasDashDash
  rw [data_dd]
  rfl

theorem trimDashDash_dd (r : String) : trimDashDash ("--" ++ r) = r := by
  obtain ⟨d⟩ := r
  unfold trimDashDash
  rw [data_dd]
  rfl

theorem splitFirstEq_none (k : List Char) (h : '=' ∉ k) : splitFirstEq k = none := by
  induction k with
  | nil => rfl
  | cons c cs ih =>
    have hc : ¬(c = '=') := fun hh => h (by simp [hh])
    simp [splitFirstEq, hc, ih (fun hm => h (List.mem_cons_of_mem _ hm))]

theorem splitFirstEq_append (k v : List Char) (h : '=' ∉ k) :
    splitFirstEq (k ++ '=' :: v) = some (k, v) := by
  induction k with
  | nil => simp [splitFirstEq]
  | cons c cs ih =>
    have hc : ¬(c = '=') := fun hh => h (by simp [hh])
    simp [splitFirstEq, hc, ih (fun hm => h (List.mem_cons_of_mem _ hm))]

theorem eqTok_data (k v : String) :
    (k ++ "=" ++ v).data = k.data ++ '=' :: v.data := by
  rw [String.data_append, String.data_append]
  rw [List.append_assoc]
  rfl

theorem cliValues_step_eq (arg : String) (rest : List String) (m : GoMap)
    (hd : hasDashDash arg = true) (kv : List Char × List Char)
    (hsp : splitFirstEq (trimDashDash arg).data = some kv) :
    cliValues (arg :: rest) m =
      cliValues rest (mapSet m (String.mk kv.1) (String.mk kv.2)) := by
  rw [cliValues.eq_def]
  simp only [hd, hsp, if_true, ite_true]

theorem cliValues_step_bare_nil (arg : String) (m : GoMap)
    (hd : hasDashDash arg = true)
    (hsp : splitFirstEq (trimDashDash arg).data = none) :
    cliValues [arg] m = mapSet m (trimDashDash arg) "true" := by
  rw [cliValues.eq_def]
  simp only [hd, hsp, if_true, ite_true]
  rw [cliValues.eq_def]

theorem cliValues_step_bare_flag (arg next : String) (rest2 : List String) (m : GoMap)
    (hd : hasDashDash arg = true)
    (hsp : splitFirstEq (trimDashDash arg).data = none)
    (hn : hasDashDash next = true) :
    cliValues (arg :: next :: rest2) m =
      cliValues (next :: rest2) (mapSet m (trimDashDash arg) "true") := by
  rw [cliValues.eq_def]
  simp only [hd, hsp, hn, if_true, ite_true]

theorem cliValues_step_bare_consume (arg next : String) (rest2 : List String)
    (m : GoMap) (hd : hasDashDash arg = true)
    (hsp : splitFirstEq (trimDashDash arg).data = none)
    (hn : hasDashDash next = false) :
    cliValues (arg :: next :: rest2) m =
      cliValues rest2 (mapSet m (trimDashDash arg) next) := by
  rw [cliValues.eq_def]
  simp only [hd, hsp, hn, Bool.false_eq_true, if_false, if_true, ite_true, ite_false]

theorem cliValues_skip (t : String) (rest : List String) (m : GoMap)
    (ht : hasDashDash t = false) :
    cliValues (t :: rest) m = cliValues rest m := by
  rw [cliValues.eq_def]
  simp only [ht, Bool.false_eq_true, if_false]

theorem trimDashDash_eqTok (k v : String) :
    trimDashDash ("--" ++ k ++ "=" ++ v) = k ++ "=" ++ v := by
  rw [String.append_assoc, String.append_assoc, trimDashDash_dd,
    ← String.append_assoc]

theorem hasDashDash_eqTok (k v : String) :
    hasDashDash ("--" ++ k ++ "=" ++ v) = true := by
  rw [String.append_assoc, String.append_assoc]
  exact hasDashDash_dd _

theorem splitFirstEq_eqTok (k v : String) (hk : '=' ∉ k.data) :
    splitFirstEq (trimDashDash ("--" ++ k ++ "=" ++ v)).data =
      some (k.data, v.data) := by
  rw [trimDashDash_eqTok, eqTok_data]
  exact splitFirstEq_append _ _ hk

theorem cliValues_eq_token (k v : String) (rest : List String) (m : GoMap)
    (hk : '=' ∉ k.data) :
    cliValues (("--" ++ k ++ "=" ++ v) :: rest) m = cliValues rest (mapSet m k v) := by
  rw [cliValues_step_eq _ rest m (hasDashDash_eqTok k v) (k.data, v.data)
    (splitFirstEq_eqTok k v hk)]

theorem cliValues_bare_consume (k next : String) (rest : List String) (m : GoMap)
    (hk : '=' ∉ k.data) (hn : hasDashDash next = false) :
    cliValues (("--" ++ k) :: next :: rest) m = cliValues rest (mapSet m k next) := by
  rw [cliValues_step_bare_consume _ next rest m (hasDashDash_dd k)
    (by rw [trimDashDash_dd]; exact splitFirstEq_none _ hk) hn]
  rw [trimDashDash_dd]

theorem cliValues_bare_flag (k next : String) (rest : List String) (m : GoMap)
    (hk : '=' ∉ k.data) (hn : hasDashDash next = true) :
    cliValues (("--" ++ k) :: next :: rest) m =
      cliValues (next :: rest) (mapSet m k "true") := by
  rw [cliValues_step_bare_flag _ next rest m (hasDashDash_dd k)
    (by rw [trimDashDash_dd]; exact splitFirstEq_none _ hk) hn]
  rw [trimDashDash_dd]

theorem cliValues_bare_last (k : String) (m : GoMap) (hk : '=' ∉ k.data) :
    cliValues [("--" ++ k)] m = mapSet m k "true" := by
  rw [cliValues_step_bare_nil _ m (hasDashDash_dd k)
    (by rw [trimDashDash_dd]; exact splitFirstEq_none _ hk)]
  rw [trimDashDash_dd]

theorem mapSet_same (m : GoMap) (k v : String) : mapSet m k v k = some v := by
  simp [mapSet]

/-- C2: the CLI adapter maps a token of the form `--key=value` to the
key with the value being everything after the first equals sign (the key
holding no equals sign, the value arbitrary, later equals signs and
spaces included); maps `--key value` to the key with the next token as
value exactly when the next token does not start with `--`; otherwise a
bare `--key` gets the value `"true"` (whether followed by another long
flag or final); and a token not starting with `--` is skipped, never
consumed as a key. -/
theorem c2_cli_token_mapping :
    (∀ (k v : String) (rest : List String) (m : GoMap), '=' ∉ k.data →
       cliValues (("--" ++ k ++ "=" ++ v) :: rest) m = cliValues rest (mapSet m k v))
    ∧ (∀ (k next : String) (rest : List String) (m : GoMap),
       '=' ∉ k.data → hasDashDash next = false →
       cliValues (("--" ++ k) :: next :: rest) m = cliValues rest (mapSet m k next))
    ∧ (∀ (k next : String) (rest : List String) (m : GoMap),
       '=' ∉ k.data → hasDashDash next = true →
       cliValues (("--" ++ k) :: next :: rest) m =
         cliValues (next :: rest) (mapSet m k "true"))
    ∧ (∀ (k : String) (m : GoMap), '=' ∉ k.data →
       cliValues [("--" ++ k)] m = mapSet m k "true")
    ∧ (∀ (t : String) (rest : List String) (m : GoMap), hasDashDash t = false →
       cliValues (t :: rest) m = cliValues rest m) :=
  ⟨fun k v rest m hk => cliValues_eq_token k v rest m hk,
   fun k next rest m hk hn => cliValues_bare_consume k next rest m hk hn,
   fun k next rest m hk hn => cliValues_bare_flag k next rest m hk hn,
   fun k m hk => cliValues_bare_last k m hk,
   fun t rest m ht => cliValues_skip t rest m ht⟩

/-- Witness for C2 at concrete tokens: a `--key=value` token whose value
holds a further equals sign and a space, a value token consumed after a
bare flag, a long flag not consumed as a value, a final bare flag, and a
skipped plain token. -/
theorem c2_witness :
    ('=' ∉ "db.host".data)
    ∧ cliValues [("--" ++ "db.host" ++ "=" ++ "a=b c")] emptyGoMap =
        cliValues [] (mapSet emptyGoMap "db.host" "a=b c")
    ∧ hasDashDash "x" = false
    ∧ cliValues [("--" ++ "flag"), "x"] emptyGoMap =
        cliValues [] (mapSet emptyGoMap "flag" "x")
    ∧ hasDashDash "--y" = true
    ∧ cliValues [("--" ++ "flag"), "--y"] emptyGoMap =
        cliValues ["--y"] (mapSet emptyGoMap "flag" "true")
    ∧ cliValues [("--" ++ "flag")] emptyGoMap = mapSet emptyGoMap "flag" "true"
    ∧ hasDashDash "plain" = false
    ∧ cliValues ["plain"] emptyGoMap = cliValues [] emptyGoMap :=
  ⟨by decide,
   c2_cli_token_mapping.1 "db.host" "a=b c" [] emptyGoMap (by decide),
   by decide,
   c2_cli_token_mapping.2.1 "flag" "x" [] emptyGoMap (by decide) (by decide),
   by decide,
   c2_cli_token_mapping.2.2.1 "flag" "--y" [] emptyGoMap (by decide) (by decide),
   c2_cli_token_mapping.2.2.2.1 "flag" emptyGoMap (by decide),
   by decide,
   c2_cli_token_mapping.2.2.2.2 "plain" [] emptyGoMap (by decide)⟩

/-- C3 counterexample: with the same dotted key appearing twice in the
argument list, the lookup returns the value of the second (last)
occurrence, not the first: the claim fails at `["--k=a", "--k=b"]`. -/
theorem c3_counterexample :
    (newCLISource ["--k=a", "--k=b"]) "k" = some "b"
    ∧ ((some "b" : Option String) ≠ some "a") := by
  constructor
  · simp [newCLISource, cliValues, hasDashDash, trimDashDash, splitFirstEq,
      mapSet, emptyGoMap]
  · decide

theorem mapSet_lookup (m : GoMap) (a w k : String) :
    mapSet m a w k =
      match (if a = k then some w else none : Option String) with
      | some v => some v
      | none => m k := by
  by_cases he : a = k
  · subst he
    simp [mapSet]
  · have he2 : ¬(k = a) := fun h => he h.symm
    simp [mapSet, he, he2]

theorem cliValues_lookup_lastAssign (args : List String) (m : GoMap) (k : String) :
    cliValues args m k =
      match lastCliAssign k args with
      | some v => some v
      | none => m k := by
  match args with
  | [] => rw [cliValues.eq_def, lastCliAssign.eq_def]
  | arg :: rest =>
    rw [cliValues.eq_def, lastCliAssign.eq_def]
    cases hd : hasDashDash arg with
    | false =>
      simp only [hd, Bool.false_eq_true, if_false]
      exact cliValues_lookup_lastAssign rest m k
    | true =>
      cases hsp : splitFirstEq (trimDashDash arg).data with
      | some kv =>
        simp only [hd, if_true, ite_true, hsp]
        rw [cliValues_lookup_lastAssign rest
          (mapSet m (String.mk kv.1) (String.mk kv.2)) k]
        cases hl : lastCliAssign k rest with
        | some u => simp [olast, hl]
        | none =>
          simp only [olast, hl]
          exact mapSet_lookup m (String.mk kv.1) (String.mk kv.2) k
      | none =>
        cases rest with
        | nil =>
          simp only [hd, if_true, ite_true, hsp]
          rw [cliValues.eq_def]
          exact mapSet_lookup m (trimDashDash arg) "true" k
        | cons next rest2 =>
          cases hn : hasDashDash next with
          | true =>
            simp only [hd, if_true, ite_true, hsp, hn]
            rw [cliValues_lookup_lastAssign (next :: rest2)
              (mapSet m (trimDashDash arg) "true") k]
            cases hl : lastCliAssign k (next :: rest2) with
            | some u => simp [olast, hl]
            | none =>
              simp only [olast, hl]
              exact mapSet_lookup m (trimDashDash arg) "true" k
          | false =>
            simp only [hd, if_true, ite_true, hsp, hn, Bool.false_eq_true, if_false]
            rw [cliValues_lookup_lastAssign rest2
              (mapSet m (trimDashDash arg) next) k]
            cases hl : lastCliAssign k rest2 with
            | some u => simp [olast, hl]
            | none =>
              simp only [olast, hl]
              exact mapSet_lookup m (trimDashDash arg) next k
termination_by args.length
decreasing_by all_goals (simp only [List.length_cons]; omega)

theorem lastCliAssign_append_eqTok (pre post : List String) (k v : String)
    (hk : '=' ∉ k.data) (hpost : lastCliAssign k post = none) :
    lastCliAssign k (pre ++ ("--" ++ k ++ "=" ++ v) :: post) = some v := by
  match pre with
  | [] =>
    rw [List.nil_append, lastCliAssign.eq_def]
    simp only [hasDashDash_eqTok, if_true, ite_true, splitFirstEq_eqTok k v hk, hpost]
    simp [olast, mk_data]
  | arg :: rest =>
    rw [List.cons_append, lastCliAssign.eq_def]
    cases hd : hasDashDash arg with
    | false =>
      simp only [hd, Bool.false_eq_true, if_false]
      exact lastCliAssign_append_eqTok rest post k v hk hpost
    | true =>
      cases hsp : splitFirstEq (trimDashDash arg).data with
      | some kv =>
        simp only [hd, if_true, ite_true, hsp]
        rw [lastCliAssign_append_eqTok rest post k v hk hpost]
        rfl
      | none =>
        cases rest with
        | nil =>
          simp only [hd, if_true, ite_true, hsp, List.nil_append, hasDashDash_eqTok]
          have h0 := lastCliAssign_append_eqTok [] post k v hk hpost
          rw [List.nil_append] at h0
          rw [h0]
          rfl
        | cons next rest2 =>
          cases hn : hasDashDash next with
          | true =>
            simp only [hd, if_true, ite_true, hsp, List.cons_append, hn]
            have h0 := lastCliAssign_append_eqTok (next :: rest2) post k v hk hpost
            rw [List.cons_append] at h0
            rw [h0]
            rfl
          | false =>
            simp only [hd, if_true, ite_true, hsp, List.cons_append, hn,
              Bool.false_eq_true, if_false]
            rw [lastCliAssign_append_eqTok rest2 post k v hk hpost]
            rfl
termination_by pre.length
decreasing_by all_goals (simp only [List.length_cons]; omega)

/-- C3 amended: for every argument list, the CLI adapter's lookup for a
key returns the value carried by the key's last occurrence, in whichever
of the three token forms, falling back to the prior map when the key
never occurs (`lastCliAssign` is the occurrence specification following
this traversal); in particular, whatever tokens precede it and whatever
tokens follow it that carry no occurrence of the key, a `--key=value`
token determines the lookup for that key. -/
theorem c3_amended_last_occurrence_wins :
    (∀ (args : List String) (m : GoMap) (k : String),
       cliValues args m k =
         match lastCliAssign k args with
         | some v => some v
         | none => m k)
    ∧ (∀ (pre post : List String) (m : GoMap) (k v : String),
       '=' ∉ k.data → lastCliAssign k post = none →
       cliValues (pre ++ ("--" ++ k ++ "=" ++ v) :: post) m k = some v) := by
  constructor
  · exact fun args m k => cliValues_lookup_lastAssign args m k
  · intro pre post m k v hk hpost
    rw [cliValues_lookup_lastAssign, lastCliAssign_append_eqTok pre post k v hk hpost]

/-- Witness for C3's amended statement: the key `k` appears twice with a
trailing token for another key, and the lookup yields the later value
`"b"`; and with the last occurrence in the consumed `--key value` form,
that consumed value wins. -/
theorem c3_witness :
    ('=' ∉ "k".data)
    ∧ lastCliAssign "k" ["--j=c"] = none
    ∧ cliValues (["--k=a"] ++ ("--" ++ "k" ++ "=" ++ "b") :: ["--j=c"])
        emptyGoMap "k" = some "b"
    ∧ lastCliAssign "k" ["--k=a", "--k", "b"] = some "b"
    ∧ cliValues ["--k=a", "--k", "b"] emptyGoMap "k" = some "b" := by
  have hpost : lastCliAssign "k" ["--j=c"] = none := by
    simp [lastCliAssign, hasDashDash, trimDashDash, splitFirstEq, olast]
  have hlast : lastCliAssign "k" ["--k=a", "--k", "b"] = some "b" := by
    simp [lastCliAssign, hasDashDash, trimDashDash, splitFirstEq, olast]
  refine ⟨by decide, hpost, ?_, hlast, ?_⟩
  · exact c3_amended_last_occurrence_wins.2 ["--k=a"] ["--j=c"] emptyGoMap "k" "b"
      (by decide) hpost
  · rw [c3_amended_last_occurrence_wins.1 ["--k=a", "--k", "b"] emptyGoMap "k", hlast]

/-! ### Schema walker claims -/

/-- C8: the schema walker assigns the dotted key `prefix.key` when both
the prefix and the declared key are non-empty, just the declared key
when the prefix is empty, and just the prefix when the declared key is
empty; and a field with no declared cfg key that is not embedded is
skipped entirely — neither collected as a parameter nor recursed into,
whatever its content. -/
theorem c8_schema_walker_keys :
    (∀ (pre tag : String), pre ≠ "" → tag ≠ "" → mkKey pre tag = pre ++ "." ++ tag)
    ∧ (∀ (tag : String), mkKey "" tag = tag)
    ∧ (∀ (pre : String), pre ≠ "" → mkKey pre "" = pre)
    ∧ (∀ (v : SchemaVal) (rest : Fields) (pre : String),
       collectFields (.cons "" false v rest) pre = collectFields rest pre)
    ∧ (∀ (tag : String) (anon : Bool) (id : Nat) (rest : Fields) (pre : String),
       ¬(tag = "" ∧ anon = false) →
       collectFields (.cons tag anon (.paramV id) rest) pre =
         (id, mkKey pre tag) :: collectFields rest pre)
    ∧ (∀ (tag : String) (anon : Bool) (fs : Fields) (rest : Fields) (pre : String),
       ¬(tag = "" ∧ anon = false) →
       collectFields (.cons tag anon (.structV fs) rest) pre =
         collectParams (.structV fs) (mkKey pre tag) ++ collectFields rest pre) := by
  refine ⟨fun pre tag hp ht => ?_, fun tag => ?_, fun pre hp => ?_,
          fun v rest pre => ?_, fun tag anon id rest pre h => ?_,
          fun tag anon fs rest pre h => ?_⟩
  · simp [mkKey, hp, ht]
  · simp [mkKey]
  · simp [mkKey, hp]
  · rw [collectFields.eq_def]
    simp
  · have hg : (decide (tag = "") && !anon) = false := by
      cases anon with
      | true => simp
      | false => simp only [Bool.not_false, Bool.and_true, decide_eq_false_iff_not]
                 exact fun h' => h ⟨h', rfl⟩
    simp [collectFields, hg]
  · have hg : (decide (tag = "") && !anon) = false := by
      cases anon with
      | true => simp
      | false => simp only [Bool.not_false, Bool.and_true, decide_eq_false_iff_not]
                 exact fun h' => h ⟨h', rfl⟩
    simp [collectFields, collectParams, hg]

/-- Witness for C8 at a concrete schema: computed keys for both-present,
empty-prefix and empty-tag cases, a skipped untagged plain field, a
collected parameter and a recursed nested struct. -/
theorem c8_witness :
    (("db" : String) ≠ "" ∧ ("host" : String) ≠ "")
    ∧ mkKey "db" "host" = "db" ++ "." ++ "host"
    ∧ mkKey "" "host" = "host"
    ∧ mkKey "db" "" = "db"
    ∧ collectFields (.cons "" false (.structV (.cons "x" false (.paramV 9) .nil)) .nil) "db" =
        collectFields .nil "db"
    ∧ (¬(("port" : String) = "" ∧ false = false))
    ∧ collectFields (.cons "port" false (.paramV 1) .nil) "db" =
        (1, mkKey "db" "port") :: collectFields .nil "db"
    ∧ collectFields (.cons "db" false
        (.structV (.cons "host" false (.paramV 2) .nil)) .nil) "" =
        collectParams (.structV (.cons "host" false (.paramV 2) .nil)) (mkKey "" "db") ++
          collectFields .nil "" := by
  refine ⟨⟨by decide, by decide⟩,
    c8_schema_walker_keys.1 "db" "host" (by decide) (by decide),
    c8_schema_walker_keys.2.1 "host",
    c8_schema_walker_keys.2.2.1 "db" (by decide),
    c8_schema_walker_keys.2.2.2.1 (.structV (.cons "x" false (.paramV 9) .nil)) .nil "db",
    by decide,
    c8_schema_walker_keys.2.2.2.2.1 "port" false 1 .nil "db" (by decide),
    c8_schema_walker_keys.2.2.2.2.2 "db" false
      (.cons "host" false (.paramV 2) .nil) .nil "" (by decide)⟩

/-! ### YAML source claims -/

/-- C9: an empty config-file path or a non-existent file yields an empty
tree on which every lookup is absent and no error; a file that reads but
fails to decode makes the whole load return that error as the fatal,
non-aggregated outcome, before any parameter is processed and with every
parameter returned unmodified. -/
theorem c9_yaml_fatal_vs_absent :
    (∀ (fs : String → FileRes) (decode : String → Except String ValueMap),
       newYAMLSource fs decode "" = .ok .nil)
    ∧ (∀ (fs : String → FileRes) (decode : String → Except String ValueMap)
       (f : String), fs f = FileRes.absent → newYAMLSource fs decode f = .ok .nil)
    ∧ (∀ (key : String), yamlSourceGet .nil key = none)
    ∧ (∀ (σ : Type) (ops : ParamOps σ) (ps : List σ) (cliF envF : Source)
       (fs : String → FileRes) (decode : String → Except String ValueMap)
       (f raw e sep : String),
       f ≠ "" → fs f = FileRes.content raw → decode raw = .error e →
       LoadModel ops ps cliF envF fs decode f sep = (ps, .fatal e)) := by
  refine ⟨fun fs decode => ?_, fun fs decode f habs => ?_, fun key => ?_,
          fun σ ops ps cliF envF fs decode f raw e sep hf hc hd => ?_⟩
  · simp [newYAMLSource]
  · by_cases hf : f = ""
    · simp [newYAMLSource, hf]
    · simp [newYAMLSource, hf, habs]
  · unfold yamlSourceGet
    cases hsp : goSplit key "." with
    | nil => exact absurd hsp (goSplit_ne_nil key ".")
    | cons p rest => simp [yamlWalk, ValueMap.find]
  · simp [LoadModel, newYAMLSource, hf, hc, hd]

/-- Witness for C9: a filesystem where the file is absent (lookup-free
construction succeeds), and one where the file exists but its content
fails to decode, making a whole load with one registered parameter
return the fatal error with the parameter untouched. -/
theorem c9_witness :
    ((fun _ => FileRes.absent) "conf.yaml" = FileRes.absent)
    ∧ newYAMLSource (fun _ => FileRes.absent)
        (fun _ => Except.error "never") "conf.yaml" = .ok .nil
    ∧ (("conf.yaml" : String) ≠ "")
    ∧ ((fun _ => FileRes.content "bad yaml") "conf.yaml" = FileRes.content "bad yaml")
    ∧ ((fun _ => (Except.error "decode fail" : Except String ValueMap)) "bad yaml" =
        Except.error "decode fail")
    ∧ LoadModel intOps [(⟨0, 0, false, false, true, "", "port", []⟩ : IntParam)]
        (fun _ => none) (fun _ => none) (fun _ => FileRes.content "bad yaml")
        (fun _ => Except.error "decode fail") "conf.yaml" "," =
        ([(⟨0, 0, false, false, true, "", "port", []⟩ : IntParam)],
         .fatal "decode fail") :=
  ⟨rfl,
   c9_yaml_fatal_vs_absent.2.1 (fun _ => FileRes.absent)
     (fun _ => Except.error "never") "conf.yaml" rfl,
   by decide,
   rfl, rfl,
   c9_yaml_fatal_vs_absent.2.2.2 IntParam intOps
     [(⟨0, 0, false, false, true, "", "port", []⟩ : IntParam)]
     (fun _ => none) (fun _ => none) (fun _ => FileRes.content "bad yaml")
     (fun _ => Except.error "decode fail") "conf.yaml" "bad yaml" "decode fail" ","
     (by decide) rfl rfl⟩

/-! ### Resolution engine claims -/

/-- C1: per-parameter source priority in `Load`, which queries the
sources in the fixed order CLI, environment, file: with all three
supplying a value the CLI value wins; without CLI the environment value;
with only the file its value; and with no source at all the parameter is
left exactly as built — value at its default (or zero) and the set flag
unchanged (false). Stated on a string parameter, whose coercion stores
the winning raw string verbatim. -/
theorem c1_source_priority (p : StringParam) (cliF envF fileF : Source)
    (sep : String) (errs : List ConfError) (a b c : String) :
    ((cliF p.k = some (.vStr a)) →
       ((loadParam stringOps p [cliF, envF, fileF] sep errs).1.value = a
        ∧ (loadParam stringOps p [cliF, envF, fileF] sep errs).1.set = true))
    ∧ ((cliF p.k = none) → (envF p.k = some (.vStr b)) →
       ((loadParam stringOps p [cliF, envF, fileF] sep errs).1.value = b
        ∧ (loadParam stringOps p [cliF, envF, fileF] sep errs).1.set = true))
    ∧ ((cliF p.k = none) → (envF p.k = none) → (fileF p.k = some (.vStr c)) →
       ((loadParam stringOps p [cliF, envF, fileF] sep errs).1.value = c
        ∧ (loadParam stringOps p [cliF, envF, fileF] sep errs).1.set = true))
    ∧ ((cliF p.k = none) → (envF p.k = none) → (fileF p.k = none) →
       (loadParam stringOps p [cliF, envF, fileF] sep errs).1 = p) := by
  refine ⟨fun h1 => ?_, fun h1 h2 => ?_, fun h1 h2 h3 => ?_, fun h1 h2 h3 => ?_⟩
  · simp [loadParam, firstSourceValue, stringOps, paramOpsOf, h1,
      StringParam.setFromString, loadParamFinish]
  · simp [loadParam, firstSourceValue, stringOps, paramOpsOf, h1, h2,
      StringParam.setFromString, loadParamFinish]
  · simp [loadParam, firstSourceValue, stringOps, paramOpsOf, h1, h2, h3,
      StringParam.setFromString, loadParamFinish]
  · simp [loadParam, firstSourceValue, stringOps, paramOpsOf, h1, h2, h3,
      loadParamFinish]

/-- Witness for C1 at a concrete key and concrete sources, exercising
all four priority scenarios. -/
theorem c1_witness :
    ((fun q => if q = "host" then some (Value.vStr "A") else none) "host" =
      some (Value.vStr "A"))
    ∧ (loadParam stringOps (⟨"", "", false, false, false, "", "host", []⟩ : StringParam)
        [fun q => if q = "host" then some (Value.vStr "A") else none,
         fun q => if q = "host" then some (Value.vStr "B") else none,
         fun q => if q = "host" then some (Value.vStr "C") else none] "," []).1.value = "A"
    ∧ (loadParam stringOps (⟨"", "", false, false, false, "", "host", []⟩ : StringParam)
        [fun _ => none,
         fun q => if q = "host" then some (Value.vStr "B") else none,
         fun q => if q = "host" then some (Value.vStr "C") else none] "," []).1.value = "B"
    ∧ (loadParam stringOps (⟨"", "", false, false, false, "", "host", []⟩ : StringParam)
        [fun _ => none, fun _ => none,
         fun q => if q = "host" then some (Value.vStr "C") else none] "," []).1.value = "C"
    ∧ (loadParam stringOps (⟨"", "", false, false, false, "", "host", []⟩ : StringParam)
        [fun _ => none, fun _ => none, fun _ => none] "," []).1 =
        (⟨"", "", false, false, false, "", "host", []⟩ : StringParam) :=
  ⟨rfl,
   ((c1_source_priority ⟨"", "", false, false, false, "", "host", []⟩
     (fun q => if q = "host" then some (Value.vStr "A") else none)
     (fun q => if q = "host" then some (Value.vStr "B") else none)
     (fun q => if q = "host" then some (Value.vStr "C") else none)
     "," [] "A" "B" "C").1 rfl).1,
   ((c1_source_priority ⟨"", "", false, false, false, "", "host", []⟩
     (fun _ => none)
     (fun q => if q = "host" then some (Value.vStr "B") else none)
     (fun q => if q = "host" then some (Value.vStr "C") else none)
     "," [] "A" "B" "C").2.1 rfl rfl).1,
   ((c1_source_priority ⟨"", "", false, false, false, "", "host", []⟩
     (fun _ => none) (fun _ => none)
     (fun q => if q = "host" then some (Value.vStr "C") else none)
     "," [] "A" "B" "C").2.2.1 rfl rfl rfl).1,
   (c1_source_priority ⟨"", "", false, false, false, "", "host", []⟩
     (fun _ => none) (fun _ => none) (fun _ => none)
     "," [] "A" "B" "C").2.2.2 rfl rfl rfl⟩

/-- C4: when the winning raw source value fails coercion, `loadParam`
appends exactly the one coercion error and returns — the validators
contribute nothing and no `RequiredError` is recorded, however the
required and default flags are set; for an int parameter the error is
the `ParseError` naming the raw text and the int kind. -/
theorem c4_parse_failure_stops :
    (∀ (σ : Type) (ops : ParamOps σ) (p : σ) (sources : List Source) (sep : String)
       (errs : List ConfError) (s : String) (p2 : σ) (e : ConfError),
       firstSourceValue sources (ops.key p) = some (.vStr s) →
       ops.setFromString p s sep = (p2, some e) →
       loadParam ops p sources sep errs = (p2, errs ++ [e]))
    ∧ (∀ (σ : Type) (ops : ParamOps σ) (p : σ) (sources : List Source) (sep : String)
       (errs : List ConfError) (v : Value) (p2 : σ) (e : ConfError),
       firstSourceValue sources (ops.key p) = some v →
       (∀ s, v ≠ .vStr s) →
       ops.setFromAny p v sep = (p2, some e) →
       loadParam ops p sources sep errs = (p2, errs ++ [e]))
    ∧ (∀ (q : IntParam) (sources : List Source) (sep : String)
       (errs : List ConfError) (s : String),
       parseGoInt s = none →
       firstSourceValue sources q.k = some (.vStr s) →
       loadParam intOps q sources sep errs =
         (q, errs ++ [.parseErr q.k s "int" true])) := by
  refine ⟨fun σ ops p sources sep errs s p2 e hv hset => ?_,
          fun σ ops p sources sep errs v p2 e hv hstr hset => ?_,
          fun q sources sep errs s hparse hv => ?_⟩
  · simp only [loadParam, hv, hset]
  · cases v with
    | vStr s => exact absurd rfl (hstr s)
    | vInt n => simp only [loadParam, hv, hset]
    | vBool b => simp only [loadParam, hv, hset]
    | vFloat q => simp only [loadParam, hv, hset]
    | vList xs => simp only [loadParam, hv, hset]
    | vMap m => simp only [loadParam, hv, hset]
  · simp only [loadParam, intOps, paramOpsOf, hv, IntParam.setFromString,
      scalarParamFromString, hparse]

/-- Witness for C4: an unparsable int from the only source yields
exactly one `ParseError` and leaves the (required, defaultless,
validator-carrying) parameter untouched. -/
theorem c4_witness :
    (parseGoInt "abc" = none)
    ∧ (firstSourceValue [fun _ => some (Value.vStr "abc")] "port" =
        some (Value.vStr "abc"))
    ∧ loadParam intOps
        (⟨0, 0, false, false, true, "", "port", [fun _ => some "always fails"]⟩ : IntParam)
        [fun _ => some (Value.vStr "abc")] "," [] =
        ((⟨0, 0, false, false, true, "", "port", [fun _ => some "always fails"]⟩ : IntParam),
         [ConfError.parseErr "port" "abc" "int" true]) :=
  ⟨by decide, rfl,
   c4_parse_failure_stops.2.2
     (⟨0, 0, false, false, true, "", "port", [fun _ => some "always fails"]⟩ : IntParam)
     [fun _ => some (Value.vStr "abc")] "," [] "abc" (by decide) rfl⟩

theorem paramValidate_not_required {T : Type} (render : T → String) (p : ParamBase T)
    (e : ConfError) (h : paramValidate render p = some e) : e.isRequiredError = false := by
  unfold paramValidate at h
  cases hrv : runValidators p.validators p.value with
  | none => rw [hrv] at h; exact absurd h (by simp)
  | some msg =>
    rw [hrv] at h
    injection h with h2
    subst h2
    rfl

theorem loadParamFinish_mem {σ : Type} (ops : ParamOps σ) (p : σ) (errs : List ConfError)
    (e : ConfError) (he : e ∈ (loadParamFinish ops p errs).2) :
    e ∈ errs ∨ ops.validate p = some e ∨
      ((ops.isRequired p && !ops.isSet p && !ops.hasDefault p) = true
        ∧ e = .requiredErr (ops.key p)) := by
  cases hval : ops.validate p with
  | none =>
    simp only [loadParamFinish, hval] at he
    by_cases hcond : (ops.isRequired p && !ops.isSet p && !ops.hasDefault p) = true
    · rw [if_pos hcond] at he
      rcases List.mem_append.mp he with h1 | h2
      · exact Or.inl h1
      · exact Or.inr (Or.inr ⟨hcond, List.mem_singleton.mp h2⟩)
    · rw [if_neg hcond] at he
      exact Or.inl he
  | some e0 =>
    simp only [loadParamFinish, hval] at he
    by_cases hcond : (ops.isRequired p && !ops.isSet p && !ops.hasDefault p) = true
    · rw [if_pos hcond] at he
      rcases List.mem_append.mp he with h1 | h2
      · rcases List.mem_append.mp h1 with ha | hb
        · exact Or.inl ha
        · exact Or.inr (Or.inl (by rw [List.mem_singleton.mp hb]))
      · exact Or.inr (Or.inr ⟨hcond, List.mem_singleton.mp h2⟩)
    · rw [if_neg hcond] at he
      rcases List.mem_append.mp he with h1 | h2
      · exact Or.inl h1
      · exact Or.inr (Or.inl (by rw [List.mem_singleton.mp h2]))

theorem intFinish_no_required (q : IntParam) (e : ConfError)
    (hq : q.set = true ∨ q.hasDefVal = true)
    (he : e ∈ (loadParamFinish intOps q []).2) : e.isRequiredError = false := by
  rcases loadParamFinish_mem intOps q [] e he with h | h | ⟨hc, _⟩
  · simp at h
  · exact paramValidate_not_required _ q e h
  · exfalso
    have hc2 : (q.required && !q.set && !q.hasDefVal) = true := hc
    rcases hq with hq | hq
    · rw [hq] at hc2
      simp at hc2
    · rw [hq] at hc2
      simp at hc2

/-- C5 counterexample: a required, defaultless int parameter with no
source value whose validator rejects the zero value yields a
`ValidationError` in addition to the `RequiredError` — not exactly one
`RequiredError` and no other error kind for the key. -/
theorem c5_counterexample :
    (loadParam intOps
      (⟨0, 0, false, false, true, "",
        "age", [fun n => if n ≥ 1 then none else some "must be at least 1"]⟩ : IntParam)
      [] "," []).2 =
      [ConfError.validationErr "age" "0" "must be at least 1",
       ConfError.requiredErr "age"]
    ∧ (loadParam intOps
      (⟨0, 0, false, false, true, "",
        "age", [fun n => if n ≥ 1 then none else some "must be at least 1"]⟩ : IntParam)
      [] "," []).2 ≠ [ConfError.requiredErr "age"] := by
  constructor
  · rfl
  · intro h
    rw [show (loadParam intOps
        (⟨0, 0, false, false, true, "",
          "age", [fun n => if n ≥ 1 then none else some "must be at least 1"]⟩ : IntParam)
        [] "," []).2 =
        [ConfError.validationErr "age" "0" "must be at least 1",
         ConfError.requiredErr "age"] from rfl] at h
    exact absurd h (by decide)

/-- C5 amended: a required parameter with no default and no source
value, whose validators accept its current value, yields exactly one
`RequiredError` for its key and nothing else (if a validator rejects the
value, a `ValidationError` for the same key is recorded as well); and a
required parameter with a configured default never yields a
`RequiredError`, whatever the sources supply. -/
theorem c5_amended_required_error :
    (∀ (σ : Type) (ops : ParamOps σ) (p : σ) (sources : List Source) (sep : String)
       (errs : List ConfError),
       firstSourceValue sources (ops.key p) = none →
       ops.validate p = none →
       ops.isRequired p = true → ops.isSet p = false → ops.hasDefault p = false →
       loadParam ops p sources sep errs = (p, errs ++ [.requiredErr (ops.key p)]))
    ∧ (∀ (q : IntParam) (sources : List Source) (sep : String),
       q.hasDefVal = true →
       ∀ e ∈ (loadParam intOps q sources sep []).2, e.isRequiredError = false) := by
  constructor
  · intro σ ops p sources sep errs hv hval hreq hset hdef
    simp [loadParam, hv, loadParamFinish, hval, hreq, hset, hdef]
  · intro q sources sep hdef e he
    simp only [loadParam, intOps, paramOpsOf] at he
    cases hv : firstSourceValue sources q.k with
    | none =>
      rw [hv] at he
      exact intFinish_no_required q e (Or.inr hdef) he
    | some v =>
      rw [hv] at he
      cases v with
      | vStr s =>
        simp only [IntParam.setFromString, scalarParamFromString] at he
        cases hp : parseGoInt s with
        | none =>
          rw [hp] at he
          simp only [List.nil_append, List.mem_singleton] at he
          subst he
          rfl
        | some n =>
          rw [hp] at he
          exact intFinish_no_required _ e (Or.inl rfl) he
      | vInt n =>
        simp only [IntParam.setFromAny] at he
        exact intFinish_no_required _ e (Or.inl rfl) he
      | vFloat x =>
        simp only [IntParam.setFromAny] at he
        exact intFinish_no_required _ e (Or.inl rfl) he
      | vBool b =>
        simp only [IntParam.setFromAny, List.nil_append, List.mem_singleton] at he
        subst he
        rfl
      | vList xs =>
        simp only [IntParam.setFromAny, List.nil_append, List.mem_singleton] at he
        subst he
        rfl
      | vMap m =>
        simp only [IntParam.setFromAny, List.nil_append, List.mem_singleton] at he
        subst he
        rfl

/-- Witness for C5's amended statement: a required, defaultless,
validator-free int parameter with no sources yields exactly the one
`RequiredError`; a required parameter with a default yields no
`RequiredError`. -/
theorem c5_witness :
    (firstSourceValue [] "age" = none)
    ∧ loadParam intOps (⟨0, 0, false, false, true, "", "age", []⟩ : IntParam) [] "," [] =
        ((⟨0, 0, false, false, true, "", "age", []⟩ : IntParam),
         [ConfError.requiredErr "age"])
    ∧ ConfError.requiredErr "port" ∉
        (loadParam intOps (⟨5, 5, true, false, true, "", "port", []⟩ : IntParam)
          [] "," []).2 := by
  refine ⟨rfl, ?_, ?_⟩
  · exact c5_amended_required_error.1 IntParam intOps
      (⟨0, 0, false, false, true, "", "age", []⟩ : IntParam) [] "," [] rfl rfl rfl rfl rfl
  · intro hmem
    have h := c5_amended_required_error.2
      (⟨5, 5, true, false, true, "", "port", []⟩ : IntParam) [] "," rfl
      (ConfError.requiredErr "port") hmem
    exact absurd h (by decide)

/-! ### Coercion-failure claims about the set flag -/

theorem scalar_err_unset {α : Type} (parse : String → Option α) (expected : String)
    (p p2 : ParamBase α) (s : String) (e : ConfError)
    (hp : p.set = false)
    (h : scalarParamFromString parse expected p s = (p2, some e)) : p2.set = false := by
  unfold scalarParamFromString at h
  cases hps : parse s with
  | none =>
    rw [hps] at h
    injection h with h1 h2
    rw [← h1]
    exact hp
  | some v =>
    rw [hps] at h
    injection h with h1 h2
    exact absurd h2 (by simp)

theorem list_err_unset {α : Type} (parse : String → Option α) (expected : String)
    (zero : α) (p p2 : ParamBase (List α)) (s sep : String) (e : ConfError)
    (hp : p.set = false)
    (h : listParamFromString parse expected zero p s sep = (p2, some e)) :
    p2.set = false := by
  unfold listParamFromString at h
  by_cases hs : s = ""
  · rw [if_pos hs] at h
    injection h with h1 h2
    exact absurd h2 (by simp)
  · rw [if_neg hs] at h
    cases hl : (listLoop parse expected p.k zero (goSplit s sep)).2 with
    | none =>
      simp only [hl] at h
      injection h with h1 h2
      exact absurd h2 (by simp)
    | some err =>
      simp only [hl] at h
      injection h with h1 h2
      rw [← h1]
      exact hp

theorem anyList_err_unset {α : Type} (conv : Value → Option α) (expected : String)
    (zero : α) (p p2 : ParamBase (List α)) (xs : ValueList) (e : ConfError)
    (hp : p.set = false)
    (h : listParamFromAnyList conv expected zero p xs = (p2, some e)) :
    p2.set = false := by
  unfold listParamFromAnyList at h
  cases hl : (anyListLoop conv expected p.k zero xs).2 with
  | none =>
    simp only [hl] at h
    injection h with h1 h2
    exact absurd h2 (by simp)
  | some err =>
    simp only [hl] at h
    injection h with h1 h2
    rw [← h1]
    exact hp

/-- C10: whenever a setter returns an error, the parameter's set flag is
still false afterwards (given it was false before), so a parameter whose
raw value failed coercion is indistinguishable from an unset one by
`IsSet`.  The first three conjuncts cover the shared scalar, list and
decoded-sequence bodies for an arbitrary element parser; the remaining
ones the per-kind `setFromAny` switches and the never-failing string
setters. -/
theorem c10_failed_coercion_leaves_unset :
    (∀ (α : Type) (parse : String → Option α) (expected : String)
       (p p2 : ParamBase α) (s : String) (e : ConfError), p.set = false →
       scalarParamFromString parse expected p s = (p2, some e) → p2.set = false)
    ∧ (∀ (α : Type) (parse : String → Option α) (expected : String) (zero : α)
       (p p2 : ParamBase (List α)) (s sep : String) (e : ConfError), p.set = false →
       listParamFromString parse expected zero p s sep = (p2, some e) → p2.set = false)
    ∧ (∀ (α : Type) (conv : Value → Option α) (expected : String) (zero : α)
       (p p2 : ParamBase (List α)) (xs : ValueList) (e : ConfError), p.set = false →
       listParamFromAnyList conv expected zero p xs = (p2, some e) → p2.set = false)
    ∧ (∀ (p p2 : IntParam) (v : Value) (sep : String) (e : ConfError), p.set = false →
       IntParam.setFromAny p v sep = (p2, some e) → p2.set = false)
    ∧ (∀ (p p2 : BoolParam) (v : Value) (sep : String) (e : ConfError), p.set = false →
       BoolParam.setFromAny p v sep = (p2, some e) → p2.set = false)
    ∧ (∀ (p p2 : IntListParam) (v : Value) (sep : String) (e : ConfError), p.set = false →
       IntListParam.setFromAny p v sep = (p2, some e) → p2.set = false)
    ∧ (∀ (p p2 : BoolListParam) (v : Value) (sep : String) (e : ConfError), p.set = false →
       BoolListParam.setFromAny p v sep = (p2, some e) → p2.set = false)
    ∧ (∀ (p p2 : StringListParam) (v : Value) (sep : String) (e : ConfError), p.set = false →
       StringListParam.setFromAny p v sep = (p2, some e) → p2.set = false)
    ∧ (∀ (p : StringParam) (s sep : String), (StringParam.setFromString p s sep).2 = none)
    ∧ (∀ (p : StringParam) (v : Value) (sep : String),
       (StringParam.setFromAny p v sep).2 = none)
    ∧ (∀ (p : StringListParam) (s sep : String),
       (StringListParam.setFromString p s sep).2 = none) := by
  refine ⟨fun α parse expected p p2 s e hp h =>
            scalar_err_unset parse expected p p2 s e hp h,
          fun α parse expected zero p p2 s sep e hp h =>
            list_err_unset parse expected zero p p2 s sep e hp h,
          fun α conv expected zero p p2 xs e hp h =>
            anyList_err_unset conv expected zero p p2 xs e hp h,
          fun p p2 v sep e hp h => ?_, fun p p2 v sep e hp h => ?_,
          fun p p2 v sep e hp h => ?_, fun p p2 v sep e hp h => ?_,
          fun p p2 v sep e hp h => ?_,
          fun p s sep => ?_, fun p v sep => ?_, fun p s sep => ?_⟩
  · cases v with
    | vStr s => exact scalar_err_unset parseGoInt "int" p p2 s e hp h
    | vInt n => exact absurd h (by simp [IntParam.setFromAny])
    | vFloat q => exact absurd h (by simp [IntParam.setFromAny])
    | vBool b =>
      unfold IntParam.setFromAny at h
      injection h with h1 h2
      rw [← h1]
      exact hp
    | vList xs =>
      unfold IntParam.setFromAny at h
      injection h with h1 h2
      rw [← h1]
      exact hp
    | vMap m =>
      unfold IntParam.setFromAny at h
      injection h with h1 h2
      rw [← h1]
      exact hp
  · cases v with
    | vStr s => exact scalar_err_unset parseGoBool "bool" p p2 s e hp h
    | vBool b => exact absurd h (by simp [BoolParam.setFromAny])
    | vInt n =>
      unfold BoolParam.setFromAny at h
      injection h with h1 h2
      rw [← h1]
      exact hp
    | vFloat q =>
      unfold BoolParam.setFromAny at h
      injection h with h1 h2
      rw [← h1]
      exact hp
    | vList xs =>
      unfold BoolParam.setFromAny at h
      injection h with h1 h2
      rw [← h1]
      exact hp
    | vMap m =>
      unfold BoolParam.setFromAny at h
      injection h with h1 h2
      rw [← h1]
      exact hp
  · cases v with
    | vStr s => exact list_err_unset parseGoInt "int" 0 p p2 s sep e hp h
    | vList xs => exact anyList_err_unset intElemConv "int" 0 p p2 xs e hp h
    | vInt n =>
      unfold IntListParam.setFromAny at h
      injection h with h1 h2
      rw [← h1]
      exact hp
    | vFloat q =>
      unfold IntListParam.setFromAny at h
      injection h with h1 h2
      rw [← h1]
      exact hp
    | vBool b =>
      unfold IntListParam.setFromAny at h
      injection h with h1 h2
      rw [← h1]
      exact hp
    | vMap m =>
      unfold IntListParam.setFromAny at h
      injection h with h1 h2
      rw [← h1]
      exact hp
  · cases v with
    | vStr s => exact list_err_unset parseGoBool "bool" false p p2 s sep e hp h
    | vList xs => exact anyList_err_unset boolElemConv "bool" false p p2 xs e hp h
    | vInt n =>
      unfold BoolListParam.setFromAny at h
      injection h with h1 h2
      rw [← h1]
      exact hp
    | vFloat q =>
      unfold BoolListParam.setFromAny at h
      injection h with h1 h2
      rw [← h1]
      exact hp
    | vBool b =>
      unfold BoolListParam.setFromAny at h
      injection h with h1 h2
      rw [← h1]
      exact hp
    | vMap m =>
      unfold BoolListParam.setFromAny at h
      injection h with h1 h2
      rw [← h1]
      exact hp
  · cases v with
    | vStr s =>
      unfold StringListParam.setFromAny StringListParam.setFromString at h
      simp only [] at h
      split at h <;> (injection h with h1 h2; exact absurd h2 (by simp))
    | vList xs => exact absurd h (by simp [StringListParam.setFromAny])
    | vInt n =>
      unfold StringListParam.setFromAny at h
      injection h with h1 h2
      rw [← h1]
      exact hp
    | vFloat q =>
      unfold StringListParam.setFromAny at h
      injection h with h1 h2
      rw [← h1]
      exact hp
    | vBool b =>
      unfold StringListParam.setFromAny at h
      injection h with h1 h2
      rw [← h1]
      exact hp
    | vMap m =>
      unfold StringListParam.setFromAny at h
      injection h with h1 h2
      rw [← h1]
      exact hp
  · rfl
  · cases v <;> rfl
  · unfold StringListParam.setFromString
    by_cases hs : s = ""
    · rw [if_pos hs]
    · rw [if_neg hs]

/-- Witness for C10: an unparsable scalar int and an int list from a
decoded sequence holding a boolean both error and leave the set flag
false. -/
theorem c10_witness :
    ((⟨0, 0, false, false, false, "", "port", []⟩ : IntParam).set = false)
    ∧ scalarParamFromString parseGoInt "int"
        (⟨0, 0, false, false, false, "", "port", []⟩ : IntParam) "abc" =
        ((⟨0, 0, false, false, false, "", "port", []⟩ : IntParam),
         some (ConfError.parseErr "port" "abc" "int" true))
    ∧ ((scalarParamFromString parseGoInt "int"
        (⟨0, 0, false, false, false, "", "port", []⟩ : IntParam) "abc").1.set = false)
    ∧ IntListParam.setFromAny (⟨[], [], false, false, false, "", "ids", []⟩ : IntListParam)
        (.vList (.cons (.vBool true) .nil)) "," =
        ((⟨[0], [], false, false, false, "", "ids", []⟩ : IntListParam),
         some (ConfError.parseErr "ids" "true" "int" false))
    ∧ ((IntListParam.setFromAny (⟨[], [], false, false, false, "", "ids", []⟩ : IntListParam)
        (.vList (.cons (.vBool true) .nil)) ",").1.set = false) := by
  refine ⟨rfl, rfl, ?_, rfl, ?_⟩
  · exact c10_failed_coercion_leaves_unset.1 Int parseGoInt "int"
      (⟨0, 0, false, false, false, "", "port", []⟩ : IntParam)
      (⟨0, 0, false, false, false, "", "port", []⟩ : IntParam) "abc"
      (ConfError.parseErr "port" "abc" "int" true) rfl rfl
  · exact c10_failed_coercion_leaves_unset.2.2.2.2.2.1
      (⟨[], [], false, false, false, "", "ids", []⟩ : IntListParam)
      (⟨[0], [], false, false, false, "", "ids", []⟩ : IntListParam)
      (.vList (.cons (.vBool true) .nil)) ","
      (ConfError.parseErr "ids" "true" "int" false) rfl rfl

end Confetto
